import Mathlib

/-!
# Image upload gallery

A shallow embedding of the upload/list service (`backend/server.js`) and of the
gallery client (`frontend/src/App.js`), followed by the properties proved about
them.

* JavaScript values are the inductive type `JsVal`; an object is the list of its
  fields in insertion order.
* Strings are Lean strings. The only string operations the code performs
  (concatenation, `path.extname`, the regular expression `image.*`) look at the
  ASCII characters `/`, `.` and the letters of `image`, so working on code
  points instead of UTF-16 units makes no difference.
* What a handler reads from its environment (`Date.now()`, `Math.random()`, the
  outcome of a disk write, of a database call or of an HTTP request) is an
  explicit argument.
* A JavaScript number is the rational number it stands for. The one arithmetic
  operation of the code, `Math.random() * 1E9`, is the IEEE double product: the
  exact product rounded to the nearest double, ties to even.
-/

namespace ImageGallery

/-! ## JavaScript values -/

/-- A JavaScript value as the handlers see it. `date ms` is a `Date` holding `ms`
milliseconds since the epoch, `objectId n` a store-assigned document identifier. -/
inductive JsVal where
  | undefined
  | null
  | bool (b : Bool)
  | num (q : ℚ)
  | str (s : String)
  | date (ms : Nat)
  | objectId (n : Nat)
  | obj (fields : List (String × JsVal))
  | arr (items : List JsVal)

/-- JavaScript truthiness (`ToBoolean`): `undefined`, `null`, `false`, `0` and the
empty string are falsy, every other value is truthy. -/
def JsVal.truthy : JsVal → Bool
  | .undefined => false
  | .null => false
  | .bool b => b
  | .num q => decide (q ≠ 0)
  | .str s => decide (s ≠ "")
  | .date _ => true
  | .objectId _ => true
  | .obj _ => true
  | .arr _ => true

/-- The property read `v?.key` for one of the field names the code reads
(`message`, `_id`, `filename`, `originalname`, `createdAt`): the field of an
object, `undefined` for a missing field and for every other value. -/
def JsVal.get (v : JsVal) (key : String) : JsVal :=
  match v with
  | .obj fields => (fields.lookup key).getD .undefined
  | _ => .undefined

/-- The field names of an object, in order (`Object.keys`). -/
def JsVal.keys : JsVal → List String
  | .obj fields => fields.map Prod.fst
  | _ => []

/-- JavaScript `a || b`. -/
def JsVal.or (a b : JsVal) : JsVal :=
  if a.truthy then a else b

/-! ## `path.extname` (POSIX) and the storage-name generator -/

/-- The local variables of Node's `path.extname` loop. `none` stands for `-1`. -/
structure ExtnameScan where
  startDot : Option Nat
  startPart : Nat
  end_ : Option Nat
  matchedSlash : Bool
  preDotState : Int

/-- Initial values of the loop variables of `path.extname`. -/
def ExtnameScan.init : ExtnameScan :=
  { startDot := none, startPart := 0, end_ := none, matchedSlash := true, preDotState := 0 }

/-- The body of the loop of `path.extname` for a character `code` at index `i`
that is not a path separator. -/
def extnameStep (code : Char) (i : Nat) (s : ExtnameScan) : ExtnameScan :=
  let s1 : ExtnameScan :=
    if s.end_ = none then { s with matchedSlash := false, end_ := some (i + 1) } else s
  if code = '.' then
    if s1.startDot = none then { s1 with startDot := some i }
    else if s1.preDotState ≠ 1 then { s1 with preDotState := 1 }
    else s1
  else if s1.startDot ≠ none then { s1 with preDotState := -1 }
  else s1

/-- The loop `for (let i = path.length - 1; i >= 0; --i)` of `path.extname`. The
first argument is the part of the path not yet visited, reversed: its head is
the character at index `i`, and `i` is the length of its tail. -/
def extnameLoop : List Char → ExtnameScan → ExtnameScan
  | [], s => s
  | code :: rest, s =>
    let i := rest.length
    if code = '/' then
      if !s.matchedSlash then { s with startPart := i + 1 }
      else extnameLoop rest s
    else extnameLoop rest (extnameStep code i s)

/-- What `path.extname` returns once the loop has ended. -/
def extnameResult (path : List Char) (s : ExtnameScan) : List Char :=
  match s.startDot, s.end_ with
  | some startDot, some e =>
    if s.preDotState = 0 ∨
        (s.preDotState = 1 ∧ startDot = e - 1 ∧ startDot = s.startPart + 1) then []
    else (path.drop startDot).take (e - startDot)
  | _, _ => []

/-- Node's `path.extname` on a list of characters. -/
def extnameChars (path : List Char) : List Char :=
  extnameResult path (extnameLoop path.reverse ExtnameScan.init)

/-- Node's `path.extname` (the POSIX flavour of `lib/path.js`): the loop above
followed by the final test. -/
def extname (path : String) : String :=
  String.mk (extnameChars path.data)

/-- Rounding to the nearest integer, ties to the even one: the rounding of IEEE
arithmetic. -/
def roundHalfEven (y : ℚ) : Int :=
  let f := Int.floor y
  let d := y - f
  if d < 1 / 2 then f
  else if 1 / 2 < d then f + 1
  else if f % 2 = 0 then f
  else f + 1

/-- The double nearest to the number `x` (round to nearest, ties to even), below
the overflow threshold. Around `x` the doubles are the multiples of
`2 ^ (e - 52)`, where `2 ^ e ≤ |x| < 2 ^ (e + 1)`, and the multiples of
`2 ^ (-1074)` in the subnormal range `e < -1022`. -/
def toDouble (x : ℚ) : ℚ :=
  let e := max (Int.log 2 |x|) (-1022)
  let ulp : ℚ := 2 ^ (e - 52)
  roundHalfEven (x / ulp) * ulp

/-- JavaScript `a * b` on two doubles: the exact product, rounded to a double. -/
def jsTimes (a b : ℚ) : ℚ :=
  toDouble (a * b)

/-- JavaScript `Math.round` on a double: the nearest integer, halves rounded
up. -/
def mathRound (x : ℚ) : Int :=
  Int.floor (x + 1 / 2)

/-- Line 45: `Math.round(Math.random() * 1E9)` for the value `random` of
`Math.random()`. -/
def roundedDraw (random : ℚ) : Int :=
  mathRound (jsTimes random 1000000000)

/-- The `filename` callback of the multer disk storage (`server.js`, lines 44-48):
`now` is the value of `Date.now()`, `random` the value of `Math.random()`, a
double in `[0, 1)`. Both numbers turned into text are integers below `1e21`, so
their text is the plain decimal one. -/
def storageFilename (now : Nat) (random : ℚ) (originalname : String) : String :=
  let uniqueName := toString now ++ "-" ++ toString (roundedDraw random)
  let ext := extname originalname
  uniqueName ++ ext

/-! ## The upload/list service (`backend/server.js`) -/

/-- A document of the `Image` collection (the mongoose schema, lines 31-38, and
the `_id` mongoose adds). `createdAt` is in milliseconds since the epoch. -/
structure ImageDoc where
  _id : Nat
  filename : String
  originalname : String
  path : String
  mimetype : String
  size : Nat
  createdAt : Nat

/-- The file part of a multipart request, as the client declares it. -/
structure IncomingFile where
  originalname : String
  mimetype : String
  size : Nat

/-- The file object multer leaves in `req.file` (disk storage). -/
structure MulterFile where
  fieldname : String
  originalname : String
  mimetype : String
  filename : String
  path : String
  size : Nat

/-- An upload request: the file parts of its multipart body in order, each with
the name of its form field. -/
structure UploadRequest where
  files : List (String × IncomingFile)

/-- What one upload request reads from its environment. -/
structure UploadEnv where
  /-- Value of `Date.now()` in the storage-name generator. -/
  now : Nat
  /-- Value of `Math.random()` in the storage-name generator. -/
  random : ℚ
  /-- The error of the disk write, if it fails. -/
  writeError : Option String
  /-- The identifier given to the new document. -/
  newId : Nat
  /-- Value of `Date.now()` taken as the default of `createdAt`. -/
  createdNow : Nat
  /-- The message of the error `newImage.save()` rejects with, if it fails. -/
  saveError : Option String

/-- The state of the service: the metadata collection in insertion order and
the names of the files in the upload directory. -/
structure ServerState where
  images : List ImageDoc
  disk : List String

/-- The body of an HTTP response: a JSON value (`res.json`) or the page of the
framework's default error handler. -/
inductive ResponseBody where
  | json (v : JsVal)
  | errorPage (message : String)

/-- An HTTP response. -/
structure Response where
  status : Nat
  body : ResponseBody

/-- Line 19: `path.join(__dirname, 'uploads')`, for the directory `dirname` of the
script. -/
def uploadDir (dirname : String) : String :=
  dirname ++ "/uploads"

/-- Line 53: `limits: { fileSize: 5 * 1024 * 1024 }`. -/
def fileSizeLimit : Nat :=
  5 * 1024 * 1024

/-- The deployment of the service: the directory of the script, and whether the
multipart parser of the installed middleware also refuses a file whose size is
exactly the limit (later versions of the parser do, earlier ones refuse only
larger files; the repository does not pin a version). -/
structure ServerConfig where
  dirname : String
  rejectAtLimit : Bool

/-- Whether the middleware refuses a file of `size` bytes for its size: always
above the limit, never below it. -/
def fileTooLarge (cfg : ServerConfig) (size : Nat) : Bool :=
  decide (size > fileSizeLimit) || (cfg.rejectAtLimit && decide (size = fileSizeLimit))

/-- How the middleware `upload.single('image')` ends: it calls the route handler
with `req.file` set or left undefined, or it passes an error on. -/
inductive MulterResult where
  | next (file : Option MulterFile)
  | error (message : String)

/-- The middleware `upload.single('image')` with the configuration of lines 42-54:
disk storage under `uploadDir` with the generated file name, a size limit, and
no file filter, so the declared media type is never looked at. It accepts one
file, in the field `image`. A request without a file part reaches the handler
with `req.file` undefined. A file part in another field and a second file part
are unexpected; an unexpected part, a file refused for its size and a failed
write are passed on as an error, and no file is left behind. -/
def uploadSingle (cfg : ServerConfig) (st : ServerState) (env : UploadEnv) (req : UploadRequest) :
    ServerState × MulterResult :=
  match req.files with
  | [] => (st, .next none)
  | (fieldname, file) :: rest =>
    if fieldname ≠ "image" then (st, .error "Unexpected field")
    else
      let filename := storageFilename env.now env.random file.originalname
      if fileTooLarge cfg file.size then (st, .error "File too large")
      else
        match env.writeError with
        | some message => (st, .error message)
        | none =>
          match rest with
          | _ :: _ => (st, .error "Unexpected field")
          | [] =>
            ({ st with disk := st.disk ++ [filename] },
              .next (some
                { fieldname := "image"
                  originalname := file.originalname
                  mimetype := file.mimetype
                  filename := filename
                  path := uploadDir cfg.dirname ++ "/" ++ filename
                  size := file.size }))

/-- The message of the `TypeError` thrown by `req.file.filename` when `req.file` is
undefined, in the wording of current Node versions. -/
def undefinedFileMessage : String :=
  "Cannot read properties of undefined (reading 'filename')"

/-- The item both endpoints build from a document (lines 69-74 and 83-88). -/
def imageJson (img : ImageDoc) : JsVal :=
  .obj
    [ ("_id", .objectId img._id),
      ("filename", .str img.filename),
      ("url", .str ("/uploads/" ++ img.filename)),
      ("createdAt", .date img.createdAt) ]

/-- The body `{ error: err.message }` of the `catch` branches. -/
def errorJson (message : String) : JsVal :=
  .obj [("error", .str message)]

/-- The route handler of `POST /api/upload` (lines 57-78) for the value of
`req.file`: the new state and the response. -/
def uploadHandler (st : ServerState) (env : UploadEnv) (reqFile : Option MulterFile) :
    ServerState × Response :=
  match reqFile with
  | none => (st, { status := 500, body := .json (errorJson undefinedFileMessage) })
  | some file =>
    let newImage : ImageDoc :=
      { _id := env.newId
        filename := file.filename
        originalname := file.originalname
        path := file.path
        mimetype := file.mimetype
        size := file.size
        createdAt := env.createdNow }
    match env.saveError with
    | some message => (st, { status := 500, body := .json (errorJson message) })
    | none =>
      ({ st with images := st.images ++ [newImage] },
        { status := 201, body := .json (imageJson newImage) })

/-- The route `POST /api/upload` with its middleware: the new state and the
response. An error passed on by the middleware is answered by the framework's
default error handler with status 500, and the route handler does not run. -/
def postUpload (cfg : ServerConfig) (st : ServerState) (env : UploadEnv) (req : UploadRequest) :
    ServerState × Response :=
  match uploadSingle cfg st env req with
  | (st1, .error message) => (st1, { status := 500, body := .errorPage message })
  | (st1, .next reqFile) => uploadHandler st1 env reqFile

/-- The JSON value of a response body, if it is one. -/
def Response.jsonBody (r : Response) : Option JsVal :=
  match r.body with
  | .json v => some v
  | .errorPage _ => none

/-- The field names of a JSON response body, in order. -/
def Response.keys (r : Response) : List String :=
  match r.body with
  | .json v => v.keys
  | .errorPage _ => []

/-- The order of `sort({ createdAt: -1 })`: `a` may come before `b`. -/
def newerFirst (a b : ImageDoc) : Prop :=
  b.createdAt ≤ a.createdAt

instance newerFirstDecidable : DecidableRel newerFirst :=
  fun a b => inferInstanceAs (Decidable (b.createdAt ≤ a.createdAt))

/-- The query `Image.find().sort({ createdAt: -1 })`: all documents, newest first
(as a stable sort). -/
def findSorted (st : ServerState) : List ImageDoc :=
  st.images.insertionSort newerFirst

/-- The route `GET /api/images` (lines 80-92); `findError` is the message of the
error the query rejects with, if it fails. -/
def getImages (st : ServerState) (findError : Option String) : Response :=
  match findError with
  | some message => { status := 500, body := .json (errorJson message) }
  | none => { status := 200, body := .json (.arr ((findSorted st).map imageJson)) }

/-- The state of a freshly started service with an empty collection. -/
def ServerState.empty : ServerState :=
  { images := [], disk := [] }

/-- A run of upload requests, one after the other: the final state and the
responses in order. -/
def runUploads (cfg : ServerConfig) :
    ServerState → List (UploadEnv × UploadRequest) → ServerState × List Response
  | st, [] => (st, [])
  | st, (env, req) :: rest =>
    let r := postUpload cfg st env req
    let rs := runUploads cfg r.1 rest
    (rs.1, r.2 :: rs.2)

/-- The number of successful uploads among the responses of a run. -/
def createdCount (responses : List Response) : Nat :=
  (responses.filter (fun r => r.status = 201)).length

/-- The creation time carried by an item of the list response. -/
def createdAtOf (item : JsVal) : Option Nat :=
  match item.get "createdAt" with
  | .date ms => some ms
  | _ => none

/-- Two adjacent items of a list response are in descending order of creation
time: both carry a time and the earlier item's is at least the later one's. -/
def descendingPair (a b : JsVal) : Prop :=
  ∃ ta tb, createdAtOf a = some ta ∧ createdAtOf b = some tb ∧ tb ≤ ta

/-- The items of a JSON array response. -/
def Response.items (r : Response) : Option (List JsVal) :=
  match r.body with
  | .json (.arr items) => some items
  | _ => none

/-- The media types the specification calls image types: those that start with
`image/`. -/
def isImageType (mediaType : String) : Bool :=
  "image/".data.isPrefixOf mediaType.data

/-! ## The gallery client (`frontend/src/App.js`) -/

/-- A browser `File` as far as the client looks at it. -/
structure File where
  name : String
  type : String
  size : Nat

/-- The state of the `App` component (lines 6-10). `images` holds whatever the
list endpoint answered, `error` whatever was passed to `setError`. -/
structure AppState where
  images : JsVal
  selectedFile : Option File
  uploading : Bool
  error : JsVal
  preview : String

/-- The initial state of the component. -/
def AppState.init : AppState :=
  { images := .arr [], selectedFile := none, uploading := false, error := .str "", preview := "" }

/-- A request the client sends to the service. -/
inductive ClientRequest where
  | getImages
  | postUpload (file : File)

/-- An HTTP response as the client library hands it over. -/
structure HttpResponse where
  status : Nat
  data : JsVal

/-- The error a request is rejected with; `response` is absent when no response
arrived. -/
structure AxiosError where
  response : Option HttpResponse

/-- How the client library settles a request: a response with a 2xx status
resolves it, any other response and a missing response reject it. -/
def axiosSettle (outcome : Option HttpResponse) : Except AxiosError HttpResponse :=
  match outcome with
  | none => .error { response := none }
  | some r =>
    if 200 ≤ r.status ∧ r.status < 300 then .ok r
    else .error { response := some r }

/-- The expression `err.response?.data?.message` of line 70. -/
def AxiosError.message (err : AxiosError) : JsVal :=
  match err.response with
  | none => .undefined
  | some r => r.data.get "message"

/-- The test `file.type.match('image.*')` of line 83. The string becomes the
regular expression `image.*`, searched anywhere in the media type; `.*` also
matches the empty string, so the test succeeds exactly when `image` occurs
somewhere. -/
def matchesImagePattern : List Char → Bool
  | [] => false
  | c :: cs => "image".data.isPrefixOf (c :: cs) || matchesImagePattern cs

/-- The function `fetchImages` (lines 34-43) for the outcome of its request: the
new state and the requests sent. -/
def fetchImages (s : AppState) (outcome : Option HttpResponse) :
    AppState × List ClientRequest :=
  match axiosSettle outcome with
  | .ok response => ({ s with images := response.data, error := .str "" }, [.getImages])
  | .error _ =>
    ({ s with error := .str "Failed to load images. Please try again later." }, [.getImages])

/-- The generic text of line 70. -/
def uploadFailedText : String :=
  "Upload failed. Please try again."

/-- The handler `handleUpload` (lines 46-75), run to its end: `postOutcome` is the
outcome of the upload request, `getOutcome` that of the list request made after
a successful upload. The result is the final state and the requests sent. -/
def handleUpload (s : AppState) (postOutcome getOutcome : Option HttpResponse) :
    AppState × List ClientRequest :=
  match s.selectedFile with
  | none => ({ s with error := .str "Please select an image first" }, [])
  | some file =>
    let s1 : AppState := { s with uploading := true, error := .str "" }
    match axiosSettle postOutcome with
    | .ok _ =>
      let r := fetchImages s1 getOutcome
      ({ r.1 with uploading := false }, .postUpload file :: r.2)
    | .error err =>
      let s2 : AppState := { s1 with error := err.message.or (.str uploadFailedText) }
      ({ s2 with uploading := false }, [.postUpload file])

/-- The handler `handleFileChange` (lines 78-96) for the files of the input
element: the new state and the requests sent. -/
def handleFileChange (s : AppState) (files : List File) : AppState × List ClientRequest :=
  match files.head? with
  | none => (s, [])
  | some file =>
    if !matchesImagePattern file.type.data then
      ({ s with error := .str "Please select an image file (JPEG, PNG, GIF)" }, [])
    else if file.size > 5 * 1024 * 1024 then
      ({ s with error := .str "File size too large (max 5MB)" }, [])
    else ({ s with selectedFile := some file, error := .str "" }, [])

/-- What one card of the image grid reads from its item (lines 156-177). -/
structure ImageCard where
  key : JsVal
  filename : JsVal
  alt : JsVal
  name : JsVal
  createdAt : JsVal

/-- The card rendered for one item of `images`. -/
def renderCard (image : JsVal) : ImageCard :=
  { key := image.get "_id"
    filename := image.get "filename"
    alt := image.get "originalname"
    name := image.get "originalname"
    createdAt := image.get "createdAt" }

/-- The gallery section (lines 148-181): the empty notice, the grid, or a render
error when `images` is not a list. -/
inductive Gallery where
  | emptyNotice
  | grid (cards : List ImageCard)
  | renderError

/-- Whether a value is `null` or `undefined`, so that reading a property of it
throws. -/
def JsVal.isNullish : JsVal → Bool
  | .undefined => true
  | .null => true
  | _ => false

/-- The gallery rendered for a value of `images`: `images.length === 0` selects the
empty notice, otherwise `images.map` builds one card per item. Rendering fails
when `images` has no `map` or an item is `null` or `undefined`. -/
def renderGallery (images : JsVal) : Gallery :=
  match images with
  | .arr [] => .emptyNotice
  | .arr items => if items.any JsVal.isNullish then .renderError else .grid (items.map renderCard)
  | .str "" => .emptyNotice
  | _ => .renderError

/-- The cards of a rendered gallery. -/
def Gallery.cards : Gallery → List ImageCard
  | .grid cards => cards
  | _ => []

/-- The value of `images` after the client has loaded the list from a service in
state `st` (the names of the fields are those the service sent). -/
def loadedImages (st : ServerState) : JsVal :=
  match (getImages st none).body with
  | .json v => v
  | .errorPage _ => .undefined

/-- The extension as the specification words it: the final dot of the name and
what follows it, or nothing when the name has no dot. -/
def finalDotPart : List Char → List Char
  | [] => []
  | c :: cs =>
    if '.' ∈ cs then finalDotPart cs
    else if c = '.' then c :: cs
    else []

/-- The storage name as the specification words it: the decimal text of the
timestamp, a hyphen, the decimal text of the rounded draw, then the final dot
of the original name and what follows it. -/
def specStorageFilename (now : Nat) (random : ℚ) (originalname : String) : String :=
  toString now ++ "-" ++ toString (roundedDraw random) ++
    String.mk (finalDotPart originalname.data)

/-- The file of a request made of exactly one file part, in the field `image`:
the requests whose file reaches the route handler. -/
def UploadRequest.single (req : UploadRequest) : Option IncomingFile :=
  match req.files with
  | [(fieldname, file)] => if fieldname = "image" then some file else none
  | _ => none

/-- The storage name the middleware hands to the route handler for a request,
when its file reaches the handler. -/
def requestName (x : UploadEnv × UploadRequest) : Option String :=
  x.2.single.map fun file => storageFilename x.1.now x.1.random file.originalname

/-- What the storage name of a request is made of: the timestamp, the rounded
draw and the extension of the original name. -/
def requestKey (x : UploadEnv × UploadRequest) : Option (Nat × Int × String) :=
  x.2.single.map fun file => (x.1.now, roundedDraw x.1.random, extname file.originalname)

/-- The loop invariant of `path.extname` on a name without path separator, once
the characters `suf` at the end of the name have been visited and `n`
characters are left: `end` is the length of the name, `startDot` the index of
the final dot of `suf`, and `preDotState` tells whether a character was seen
before that dot and whether the last one seen was a dot. -/
def ScannedSuffix (n : Nat) (suf : List Char) (s : ExtnameScan) : Prop :=
  s.startPart = 0 ∧
    (suf = [] → s.end_ = none) ∧
    (suf ≠ [] → s.end_ = some (n + suf.length)) ∧
    ('.' ∉ suf → s.startDot = none ∧ s.preDotState = 0) ∧
    ('.' ∈ suf → ∃ a, suf = a ++ finalDotPart suf ∧ s.startDot = some (n + a.length) ∧
      s.preDotState = if a = [] then 0 else if suf.head? = some '.' then 1 else -1)

/-! ## Concrete inputs used by the closed theorems below -/

/-- A deployment whose parser accepts a file of exactly the limit. -/
def sampleConfig : ServerConfig :=
  { dirname := "/srv", rejectAtLimit := false }

/-- An environment in which the disk write and the metadata insert succeed. -/
def sampleEnv : UploadEnv :=
  { now := 1700000000000, random := 1 / 4, writeError := none, newId := 7,
    createdNow := 1700000000005, saveError := none }

/-- An environment in which the metadata insert fails. -/
def failingSaveEnv : UploadEnv :=
  { sampleEnv with saveError := some "E11000 duplicate key" }

/-- An upload of a small text file. -/
def textRequest : UploadRequest :=
  { files := [("image", { originalname := "notes.txt", mimetype := "text/plain", size := 12 })] }

/-- An upload of a small PNG image. -/
def pngRequest : UploadRequest :=
  { files := [("image", { originalname := "cat.png", mimetype := "image/png", size := 2048 })] }

/-- The environment of a second upload that reads the same clock value and the
same random draw as `sampleEnv`. -/
def sameDrawEnv : UploadEnv :=
  { sampleEnv with newId := 8, createdNow := 1700000000006 }

/-- The environment of a later upload: the clock has advanced by a millisecond. -/
def laterEnv : UploadEnv :=
  { sampleEnv with now := 1700000000001, newId := 9, createdNow := 1700000000007 }

/-- A second PNG upload, under another original name. -/
def otherPngRequest : UploadRequest :=
  { files := [("image", { originalname := "dog.png", mimetype := "image/png", size := 4096 })] }

/-- An upload whose only file part is in the field `avatar`. -/
def avatarRequest : UploadRequest :=
  { files := [("avatar", { originalname := "cat.png", mimetype := "image/png", size := 2048 })] }

/-- An upload without any file part. -/
def emptyRequest : UploadRequest :=
  { files := [] }

/-- A draw whose exact product with `1e9` lies just below `46166.5` and whose double
product is `46166.5`. -/
def nearHalfDraw : ℚ :=
  415830864394 / 2 ^ 53

/-- A draw whose exact product with `1e9` lies halfway between two doubles. -/
def tieDraw : ℚ :=
  8589934589 / 2 ^ 33

/-- The double that follows `nearHalfDraw`. -/
def nextDraw : ℚ :=
  415830864395 / 2 ^ 53

/-- A disk image, whose media type contains the word `image` without being an
image type. -/
def diskImageFile : File :=
  { name := "setup.dmg", type := "application/x-apple-diskimage", size := 1024 }

/-- A PNG file on the client side. -/
def pngFile : File :=
  { name := "cat.png", type := "image/png", size := 2048 }

/-- A client state with `pngFile` selected. -/
def selectedState : AppState :=
  { AppState.init with selectedFile := some pngFile }

/-! ## Decimal text of a natural number -/

theorem digitChar_isDigit (d : Nat) (h : d < 10) : (Nat.digitChar d).isDigit = true := by
  interval_cases d <;> rfl

theorem digitChar_value (d : Nat) (h : d < 10) : (Nat.digitChar d).toNat - 48 = d := by
  interval_cases d <;> rfl

theorem toDigitsCore_append (fuel : Nat) : ∀ (n : Nat) (ds : List Char),
    Nat.toDigitsCore 10 fuel n ds = Nat.toDigitsCore 10 fuel n [] ++ ds := by
  induction fuel with
  | zero => intro n ds; simp [Nat.toDigitsCore]
  | succ fuel ih =>
    intro n ds
    simp only [Nat.toDigitsCore]
    split
    · simp
    · rw [ih (n / 10) (Nat.digitChar (n % 10) :: ds), ih (n / 10) [Nat.digitChar (n % 10)]]
      simp

theorem toDigitsCore_value (fuel : Nat) : ∀ n : Nat, n < fuel →
    (Nat.toDigitsCore 10 fuel n []).foldl (fun acc c => 10 * acc + (c.toNat - 48)) 0 = n := by
  induction fuel with
  | zero => intro n h; omega
  | succ fuel ih =>
    intro n h
    simp only [Nat.toDigitsCore]
    split
    next h0 =>
      have hmod : n % 10 = n := by omega
      have hv := digitChar_value (n % 10) (Nat.mod_lt _ (by decide))
      rw [hmod] at hv
      simpa [hmod] using hv
    next h0 =>
      rw [toDigitsCore_append, List.foldl_append, ih (n / 10) (by omega)]
      simp [digitChar_value (n % 10) (Nat.mod_lt _ (by decide))]
      omega

theorem toDigitsCore_isDigit (fuel : Nat) : ∀ (n : Nat) (ds : List Char),
    (∀ c ∈ ds, c.isDigit = true) → ∀ c ∈ Nat.toDigitsCore 10 fuel n ds, c.isDigit = true := by
  induction fuel with
  | zero => intro n ds h; simpa [Nat.toDigitsCore] using h
  | succ fuel ih =>
    intro n ds h
    have hd : ∀ c ∈ Nat.digitChar (n % 10) :: ds, c.isDigit = true := by
      intro c hc
      rcases List.mem_cons.mp hc with rfl | hc
      · exact digitChar_isDigit _ (Nat.mod_lt _ (by decide))
      · exact h c hc
    simp only [Nat.toDigitsCore]
    split
    · exact hd
    · exact ih _ _ hd

theorem toDigits_isDigit (n : Nat) : ∀ c ∈ Nat.toDigits 10 n, c.isDigit = true :=
  toDigitsCore_isDigit (n + 1) n [] (by simp)

theorem toDigits_injective (n m : Nat) (h : Nat.toDigits 10 n = Nat.toDigits 10 m) : n = m := by
  have hn := toDigitsCore_value (n + 1) n (Nat.lt_succ_self n)
  have hm := toDigitsCore_value (m + 1) m (Nat.lt_succ_self m)
  unfold Nat.toDigits at h
  rw [h] at hn
  exact hn.symm.trans hm

theorem toString_nat_data (n : Nat) : (toString n).data = Nat.toDigits 10 n := rfl

theorem append_split (P : Char → Prop) : ∀ (l1 l2 r1 r2 : List Char),
    (∀ c ∈ l1, P c) → (∀ c ∈ l2, P c) → (∀ c ∈ r1.head?, ¬ P c) → (∀ c ∈ r2.head?, ¬ P c) →
    l1 ++ r1 = l2 ++ r2 → l1 = l2 ∧ r1 = r2 := by
  intro l1
  induction l1 with
  | nil =>
    intro l2 r1 r2 _ h2 hr1 _ heq
    cases l2 with
    | nil => exact ⟨rfl, heq⟩
    | cons b l2 =>
      exfalso
      simp only [List.nil_append] at heq
      subst heq
      exact hr1 b (by simp) (h2 b (by simp))
  | cons a l1 ih =>
    intro l2 r1 r2 h1 h2 hr1 hr2 heq
    cases l2 with
    | nil =>
      exfalso
      simp only [List.nil_append] at heq
      subst heq
      exact hr2 a (by simp) (h1 a (by simp))
    | cons b l2 =>
      simp only [List.cons_append, List.cons.injEq] at heq
      obtain ⟨hab, htl⟩ := heq
      obtain ⟨hl, hr⟩ := ih l2 r1 r2 (fun c hc => h1 c (List.mem_cons_of_mem _ hc))
        (fun c hc => h2 c (List.mem_cons_of_mem _ hc)) hr1 hr2 htl
      exact ⟨by rw [hab, hl], hr⟩

/-! ## Properties of `path.extname` -/

theorem extnameStep_inv (path : List Char) (code : Char) (i : Nat) (s : ExtnameScan)
    (hcode : path[i]? = some code)
    (hend : ∀ e, s.end_ = some e → i + 1 ≤ e)
    (hdot : ∀ d, s.startDot = some d →
      path[d]? = some '.' ∧ ∃ e, s.end_ = some e ∧ d < e) :
    (∀ e, (extnameStep code i s).end_ = some e → i + 1 ≤ e) ∧
      ∀ d, (extnameStep code i s).startDot = some d →
        path[d]? = some '.' ∧ ∃ e, (extnameStep code i s).end_ = some e ∧ d < e := by
  obtain ⟨startDot, startPart, e0, matchedSlash, preDotState⟩ := s
  simp only at hend hdot
  by_cases hc : code = '.'
  · subst hc
    cases e0 with
    | none =>
      cases startDot with
      | none => simp [extnameStep, hcode]
      | some d0 => simpa [extnameStep] using (hdot d0 rfl).2
    | some e1 =>
      have he := hend e1 rfl
      cases startDot with
      | none =>
        simp only [extnameStep]
        simp [hcode]
        omega
      | some d0 =>
        have hd := hdot d0 rfl
        by_cases hp : preDotState = 1
        · simp [extnameStep, hp]
          exact ⟨he, by simpa using hd⟩
        · simp [extnameStep, hp]
          exact ⟨he, by simpa using hd⟩
  · cases e0 with
    | none =>
      cases startDot with
      | none => simp [extnameStep, hc]
      | some d0 => simpa [extnameStep] using (hdot d0 rfl).2
    | some e1 =>
      have he := hend e1 rfl
      cases startDot with
      | none => simp [extnameStep, hc]; exact he
      | some d0 =>
        have hd := hdot d0 rfl
        simp [extnameStep, hc]
        exact ⟨he, by simpa using hd⟩

theorem extnameLoop_inv (path : List Char) : ∀ (rem suf : List Char) (s : ExtnameScan),
    path = rem.reverse ++ suf →
    (∀ e, s.end_ = some e → rem.length ≤ e) →
    (∀ d, s.startDot = some d → path[d]? = some '.' ∧ ∃ e, s.end_ = some e ∧ d < e) →
    ∀ d, (extnameLoop rem s).startDot = some d →
      path[d]? = some '.' ∧ ∃ e, (extnameLoop rem s).end_ = some e ∧ d < e := by
  intro rem
  induction rem with
  | nil => intro suf s _ _ hdot; simpa [extnameLoop] using hdot
  | cons code rest ih =>
    intro suf s hpath hend hdot
    have hpath2 : path = rest.reverse ++ (code :: suf) := by
      rw [hpath]; simp
    have hend2 : ∀ e, s.end_ = some e → rest.length + 1 ≤ e := by
      intro e he; simpa using hend e he
    simp only [extnameLoop]
    split
    · split
      · simpa using hdot
      · exact ih (code :: suf) s hpath2 (fun e he => Nat.le_of_succ_le (hend2 e he)) hdot
    · have hcode : path[rest.length]? = some code := by
        rw [hpath2, List.getElem?_append_right (by simp)]
        simp
      obtain ⟨h1, h2⟩ := extnameStep_inv path code rest.length s hcode hend2 hdot
      exact ih (code :: suf) _ hpath2 (fun e he => Nat.le_of_succ_le (h1 e he)) h2

theorem extnameChars_shape (path : List Char) :
    extnameChars path = [] ∨ ∃ t, extnameChars path = '.' :: t := by
  have hinv := extnameLoop_inv path path.reverse [] ExtnameScan.init (by simp)
    (by simp [ExtnameScan.init]) (by simp [ExtnameScan.init])
  unfold extnameChars extnameResult
  split
  next d e hd he =>
    split
    · left; rfl
    · right
      obtain ⟨hget, e2, he2, hlt⟩ := hinv d hd
      rw [he] at he2
      cases he2
      have hdlt : d < path.length := by
        by_contra hcon
        rw [List.getElem?_eq_none (by omega)] at hget
        cases hget
      have hval : path[d] = '.' := by
        rw [List.getElem?_eq_getElem hdlt] at hget
        exact Option.some.inj hget
      rw [List.drop_eq_getElem_cons hdlt, hval]
      obtain ⟨k, hk⟩ : ∃ k, e - d = k + 1 := ⟨e - d - 1, by omega⟩
      rw [hk, List.take_succ_cons]
      exact ⟨_, rfl⟩
  · left; rfl

theorem finalDotPart_of_not_mem : ∀ l : List Char, '.' ∉ l → finalDotPart l = [] := by
  intro l
  induction l with
  | nil => intro _; rfl
  | cons c cs ih =>
    intro h
    have hc : ¬ c = '.' := fun hc => h (by simp [hc])
    have hcs : '.' ∉ cs := fun hm => h (List.mem_cons_of_mem _ hm)
    simp [finalDotPart, hcs, hc]

theorem finalDotPart_shape : ∀ l : List Char,
    finalDotPart l = [] ∨ ∃ t, finalDotPart l = '.' :: t := by
  intro l
  induction l with
  | nil => left; rfl
  | cons c cs ih =>
    by_cases hcs : '.' ∈ cs
    · simpa [finalDotPart, hcs] using ih
    · by_cases hc : c = '.'
      · right; exact ⟨cs, by simp [finalDotPart, hcs, hc]⟩
      · left; simp [finalDotPart, hcs, hc]

theorem extnameStep_scanned (c : Char) (n : Nat) (suf : List Char) (s : ExtnameScan)
    (h : ScannedSuffix (n + 1) suf s) : ScannedSuffix n (c :: suf) (extnameStep c n s) := by
  obtain ⟨startDot, startPart, e0, matchedSlash, preDotState⟩ := s
  obtain ⟨hsp, hnil, hcons, hnodot, hdot⟩ := h
  simp only at hsp hnil hcons hnodot hdot
  subst hsp
  by_cases hs : suf = []
  · subst hs
    have he := hnil rfl
    obtain ⟨hsd, hpd⟩ := hnodot (by simp)
    subst he hsd hpd
    by_cases hc : c = '.'
    · subst hc
      refine ⟨rfl, by simp, by simp [extnameStep], by simp, ?_⟩
      intro _
      exact ⟨[], by simp [finalDotPart], by simp [extnameStep], by simp [extnameStep]⟩
    · refine ⟨by simp [extnameStep, hc], by simp, by simp [extnameStep, hc], ?_, ?_⟩
      · intro _; simp [extnameStep, hc]
      · intro hm; simp at hm; exact absurd hm.symm hc
  · have he := hcons hs
    subst he
    by_cases hd : '.' ∈ suf
    · obtain ⟨a, ha, hsd, hpd⟩ := hdot hd
      subst hsd
      have hfd : finalDotPart (c :: suf) = finalDotPart suf := by simp [finalDotPart, hd]
      by_cases hc : c = '.'
      · subst hc
        refine ⟨?_, by simp, ?_, ?_, ?_⟩
        · by_cases hp : preDotState = 1 <;> simp [extnameStep, hp]
        · intro _
          by_cases hp : preDotState = 1 <;> simp [extnameStep, hp] <;> omega
        · intro hn; exact absurd (List.mem_cons_self _ _) hn
        · intro _
          refine ⟨'.' :: a, ?_, ?_, ?_⟩
          · rw [hfd, List.cons_append, ← ha]
          · by_cases hp : preDotState = 1 <;> simp [extnameStep, hp] <;> omega
          · by_cases hp : preDotState = 1 <;> simp [extnameStep, hp]
      · refine ⟨by simp [extnameStep, hc], by simp, ?_, ?_, ?_⟩
        · intro _; simp [extnameStep, hc]; omega
        · intro hn; exact absurd (List.mem_cons_of_mem _ hd) hn
        · intro _
          refine ⟨c :: a, ?_, ?_, ?_⟩
          · rw [hfd, List.cons_append, ← ha]
          · simp [extnameStep, hc]; omega
          · simp [extnameStep, hc]
    · obtain ⟨hsd, hpd⟩ := hnodot hd
      subst hsd hpd
      by_cases hc : c = '.'
      · subst hc
        refine ⟨by simp [extnameStep], by simp, ?_, ?_, ?_⟩
        · intro _; simp [extnameStep]; omega
        · intro hn; exact absurd (List.mem_cons_self _ _) hn
        · intro _
          exact ⟨[], by simp [finalDotPart, hd], by simp [extnameStep], by simp [extnameStep]⟩
      · refine ⟨by simp [extnameStep, hc], by simp, ?_, ?_, ?_⟩
        · intro _; simp [extnameStep, hc]; omega
        · intro _; simp [extnameStep, hc]
        · intro hm
          rcases List.mem_cons.mp hm with h1 | h1
          · exact absurd h1.symm hc
          · exact absurd h1 hd

theorem extnameLoop_scanned : ∀ (rem suf : List Char) (s : ExtnameScan), '/' ∉ rem →
    ScannedSuffix rem.length suf s →
    ScannedSuffix 0 (rem.reverse ++ suf) (extnameLoop rem s) := by
  intro rem
  induction rem with
  | nil => intro suf s _ h; simpa [extnameLoop] using h
  | cons c rest ih =>
    intro suf s hslash h
    have hc : ¬ c = '/' := fun hc => hslash (by simp [hc])
    have hrest : '/' ∉ rest := fun hm => hslash (List.mem_cons_of_mem _ hm)
    have hstep := extnameStep_scanned c rest.length suf s h
    have := ih (c :: suf) _ hrest hstep
    simpa [extnameLoop, hc] using this

theorem extnameChars_of_no_separator (path : List Char) (hslash : '/' ∉ path) :
    extnameChars path =
      if finalDotPart path = path ∨ path = ['.', '.'] then [] else finalDotPart path := by
  have hinit : ScannedSuffix path.reverse.length [] ExtnameScan.init := by
    simp [ScannedSuffix, ExtnameScan.init]
  have h := extnameLoop_scanned path.reverse [] ExtnameScan.init (by simpa using hslash) hinit
  simp only [List.reverse_reverse, List.append_nil] at h
  unfold extnameChars extnameResult
  generalize extnameLoop path.reverse ExtnameScan.init = s at h
  obtain ⟨startDot, startPart, e0, matchedSlash, preDotState⟩ := s
  obtain ⟨hsp, hnil, hcons, hnodot, hdot⟩ := h
  simp only at hsp hnil hcons hnodot hdot
  subst hsp
  by_cases hd : '.' ∈ path
  · have hne : path ≠ [] := by
      intro hp; rw [hp] at hd; simp at hd
    obtain ⟨a, ha, hsd, hpd⟩ := hdot hd
    have he := hcons hne
    subst hsd he
    simp only [Nat.zero_add]
    have hlen : path.length = a.length + (finalDotPart path).length := by
      conv_lhs => rw [ha]
      simp
    by_cases hanil : a = []
    · subst hanil
      have hfp : finalDotPart path = path := by
        simpa using ha.symm
      simp [hpd, hfp]
    · have hfp : ¬ finalDotPart path = path := by
        intro hfp
        rw [hfp] at hlen
        have : a.length = 0 := by omega
        exact hanil (List.length_eq_zero.mp this)
      have hdrop : (path.drop a.length).take (path.length - a.length) = finalDotPart path := by
        conv_lhs => rw [ha]
        simp [hlen]
      rw [hdrop]
      by_cases hdd : path = ['.', '.']
      · have hfd2 : finalDotPart path = ['.'] := by rw [hdd]; decide
        have ha2 : a.length = 1 := by
          rw [hfd2, hdd] at hlen; simp at hlen; omega
        have hhead : path.head? = some '.' := by rw [hdd]; rfl
        have hpl : path.length = 2 := by rw [hdd]; rfl
        simp [hpd, hanil, hhead, ha2, hpl, hdd]
      · have hcond : ¬ (preDotState = 0 ∨
            (preDotState = 1 ∧ a.length = path.length - 1 ∧ a.length = 0 + 1)) := by
          rintro (h0 | ⟨h1, h2, h3⟩)
          · rw [hpd] at h0
            simp only [hanil, if_false] at h0
            split at h0 <;> simp at h0
          · apply hdd
            rw [hpd] at h1
            simp only [hanil, if_false] at h1
            have hhead : path.head? = some '.' := by
              by_contra hh
              simp [hh] at h1
            have hfl : (finalDotPart path).length = 1 := by omega
            rcases finalDotPart_shape path with hnil2 | ⟨t, ht⟩
            · rw [hnil2] at hfl; simp at hfl
            · rw [ht] at hfl
              have htnil : t = [] := by
                apply List.length_eq_zero.mp
                simpa using hfl
              subst htnil
              match a, h3, hanil with
              | [x], _, _ =>
                rw [ht] at ha
                rw [ha] at hhead
                simp at hhead
                rw [ha, hhead]
                rfl
        simp only [hfp, hdd, or_self, if_false]
        rw [if_neg hcond]
  · obtain ⟨hsd, _⟩ := hnodot hd
    subst hsd
    simp [finalDotPart_of_not_mem path hd]

/-! ## Properties of the service -/

theorem uploadSingle_images (cfg : ServerConfig) (st : ServerState) (env : UploadEnv)
    (req : UploadRequest) : (uploadSingle cfg st env req).1.images = st.images := by
  unfold uploadSingle
  repeat (first | rfl | split)

theorem uploadHandler_images (st : ServerState) (env : UploadEnv) (reqFile : Option MulterFile) :
    ((uploadHandler st env reqFile).2.status = 201 ∧
        ∃ doc, (uploadHandler st env reqFile).1.images = st.images ++ [doc]) ∨
      ((uploadHandler st env reqFile).2.status ≠ 201 ∧
        (uploadHandler st env reqFile).1.images = st.images) := by
  unfold uploadHandler
  split
  · right; exact ⟨by simp, rfl⟩
  · split
    · right; exact ⟨by simp, rfl⟩
    · left; exact ⟨rfl, _, rfl⟩

theorem postUpload_images (cfg : ServerConfig) (st : ServerState) (env : UploadEnv)
    (req : UploadRequest) :
    ((postUpload cfg st env req).2.status = 201 ∧
        ∃ doc, (postUpload cfg st env req).1.images = st.images ++ [doc]) ∨
      ((postUpload cfg st env req).2.status ≠ 201 ∧
        (postUpload cfg st env req).1.images = st.images) := by
  have hm := uploadSingle_images cfg st env req
  unfold postUpload
  split
  next st1 message heq =>
    right
    rw [heq] at hm
    exact ⟨by simp, hm⟩
  next st1 reqFile heq =>
    rw [heq] at hm
    have hh := uploadHandler_images st1 env reqFile
    rw [show st1.images = st.images from hm] at hh
    exact hh

theorem postUpload_length (cfg : ServerConfig) (st : ServerState) (env : UploadEnv)
    (req : UploadRequest) :
    (postUpload cfg st env req).1.images.length =
      st.images.length + createdCount [(postUpload cfg st env req).2] := by
  rcases postUpload_images cfg st env req with ⟨h201, doc, hdoc⟩ | ⟨hne, hsame⟩
  · rw [hdoc]
    simp [createdCount, h201]
  · rw [hsame]
    simp [createdCount, hne]

theorem createdCount_cons (r : Response) (rs : List Response) :
    createdCount (r :: rs) = createdCount [r] + createdCount rs := by
  unfold createdCount
  by_cases h : r.status = 201 <;> simp [List.filter_cons, h, Nat.add_comm]

theorem runUploads_length (cfg : ServerConfig) (reqs : List (UploadEnv × UploadRequest)) :
    ∀ st : ServerState,
      (runUploads cfg st reqs).1.images.length =
        st.images.length + createdCount (runUploads cfg st reqs).2 := by
  induction reqs with
  | nil => intro st; simp [runUploads, createdCount]
  | cons head rest ih =>
    intro st
    obtain ⟨env, req⟩ := head
    simp only [runUploads]
    rw [ih, postUpload_length, createdCount_cons _ (runUploads _ _ rest).2]
    omega

theorem findSorted_sorted (st : ServerState) : (findSorted st).Sorted newerFirst := by
  haveI : IsTotal ImageDoc newerFirst := ⟨fun a b => Nat.le_total b.createdAt a.createdAt⟩
  haveI : IsTrans ImageDoc newerFirst :=
    ⟨fun a b c hab hbc => Nat.le_trans (show c.createdAt ≤ b.createdAt from hbc) hab⟩
  exact List.sorted_insertionSort newerFirst st.images

theorem findSorted_perm (st : ServerState) : (findSorted st).Perm st.images :=
  List.perm_insertionSort newerFirst st.images

theorem createdAtOf_imageJson (img : ImageDoc) : createdAtOf (imageJson img) = some img.createdAt := by
  simp [createdAtOf, imageJson, JsVal.get, List.lookup]

theorem imageJson_keys (img : ImageDoc) :
    (imageJson img).keys = ["_id", "filename", "url", "createdAt"] := by
  simp [imageJson, JsVal.keys]

theorem imageJson_originalname (img : ImageDoc) :
    (imageJson img).get "originalname" = JsVal.undefined := by
  simp [imageJson, JsVal.get, List.lookup]

/-- C1: after any run of upload requests on an empty store, the list endpoint
answers 200 with a JSON array that has exactly as many items as uploads
succeeded, one item per stored record, and every adjacent pair of items is in
descending order of `createdAt`. -/
theorem list_returns_every_upload_newest_first (cfg : ServerConfig)
    (reqs : List (UploadEnv × UploadRequest)) :
    (getImages (runUploads cfg ServerState.empty reqs).1 none).status = 200 ∧
      ∃ items,
        (getImages (runUploads cfg ServerState.empty reqs).1 none).items = some items ∧
          items.length = createdCount (runUploads cfg ServerState.empty reqs).2 ∧
          items.Perm ((runUploads cfg ServerState.empty reqs).1.images.map imageJson) ∧
          items.Chain' descendingPair := by
  refine ⟨rfl, ((findSorted (runUploads cfg ServerState.empty reqs).1).map imageJson), rfl,
    ?_, ?_, ?_⟩
  · rw [List.length_map, (findSorted_perm _).length_eq, runUploads_length]
    simp [ServerState.empty]
  · exact (findSorted_perm _).map imageJson
  · rw [List.chain'_map]
    refine List.Chain'.imp ?_ (findSorted_sorted _).chain'
    intro a b hab
    exact ⟨a.createdAt, b.createdAt, createdAtOf_imageJson a, createdAtOf_imageJson b, hab⟩

theorem postUpload_accepted (cfg : ServerConfig) (st : ServerState) (env : UploadEnv)
    (req : UploadRequest) (file : IncomingFile) (hfile : req.files = [("image", file)])
    (hsize : fileTooLarge cfg file.size = false) (hwrite : env.writeError = none) :
    postUpload cfg st env req =
      uploadHandler
        { st with disk := st.disk ++ [storageFilename env.now env.random file.originalname] } env
        (some
          { fieldname := "image"
            originalname := file.originalname
            mimetype := file.mimetype
            filename := storageFilename env.now env.random file.originalname
            path := uploadDir cfg.dirname ++ "/" ++
              storageFilename env.now env.random file.originalname
            size := file.size }) := by
  simp [postUpload, uploadSingle, hfile, hsize, hwrite]

/-- C2 (as stated, refuted): a successful upload is answered with status 201, but
the fields of the body are `_id`, `filename`, `url`, `createdAt`; there is no
field named `id`. -/
theorem upload_response_has_no_id_field :
    (postUpload sampleConfig ServerState.empty sampleEnv pngRequest).2.status = 201 ∧
      (postUpload sampleConfig ServerState.empty sampleEnv pngRequest).2.keys ≠
        ["id", "filename", "url", "createdAt"] ∧
      "id" ∉ (postUpload sampleConfig ServerState.empty sampleEnv pngRequest).2.keys := by
  refine ⟨by decide, by decide, by decide⟩

/-- C2 (amended): an upload whose file is accepted by the middleware (not refused
for its size, written to disk) and whose metadata insert succeeds is answered with
status 201 and a JSON object whose fields are exactly `_id`, `filename`, `url`
and `createdAt`: the identifier of the created record, the generated storage
name, `/uploads/` followed by that name, and the creation time of the record. -/
theorem upload_success_response (cfg : ServerConfig) (st : ServerState) (env : UploadEnv)
    (req : UploadRequest) (file : IncomingFile) (hfile : req.files = [("image", file)])
    (hsize : fileTooLarge cfg file.size = false) (hwrite : env.writeError = none)
    (hsave : env.saveError = none) :
    (postUpload cfg st env req).2 =
        { status := 201
          body := .json (.obj
            [ ("_id", .objectId env.newId),
              ("filename", .str (storageFilename env.now env.random file.originalname)),
              ("url", .str ("/uploads/" ++ storageFilename env.now env.random file.originalname)),
              ("createdAt", .date env.createdNow) ]) } ∧
      (postUpload cfg st env req).2.keys = ["_id", "filename", "url", "createdAt"] ∧
      ∃ doc, (postUpload cfg st env req).1.images = st.images ++ [doc] ∧
        doc._id = env.newId ∧
        doc.filename = storageFilename env.now env.random file.originalname ∧
        doc.createdAt = env.createdNow := by
  rw [postUpload_accepted cfg st env req file hfile hsize hwrite]
  simp [uploadHandler, hsave, imageJson, Response.keys, JsVal.keys]

theorem upload_success_response_witness :
    (postUpload sampleConfig ServerState.empty sampleEnv pngRequest).2.keys =
      ["_id", "filename", "url", "createdAt"] :=
  (upload_success_response sampleConfig ServerState.empty sampleEnv pngRequest
    { originalname := "cat.png", mimetype := "image/png", size := 2048 } rfl (by decide) rfl
    rfl).2.1

/-- C3 (as stated, refuted): an upload declaring the media type `text/plain`, which
is not an image type, is answered with status 201 and its record is inserted. -/
theorem text_upload_is_accepted :
    isImageType "text/plain" = false ∧
      (postUpload sampleConfig ServerState.empty sampleEnv textRequest).2.status = 201 ∧
      (postUpload sampleConfig ServerState.empty sampleEnv textRequest).1.images.length = 1 ∧
      ((postUpload sampleConfig ServerState.empty sampleEnv textRequest).1.images.map
        ImageDoc.mimetype) = ["text/plain"] := by
  refine ⟨by decide, by decide, by decide, by decide⟩

/-- C3 (amended): the upload endpoint applies no check of the media type. An upload
whose file declares a media type that is not an image type is answered with
status 201 exactly when the middleware does not refuse the file for its size
(it never does below 5 MiB and always does above) and the disk write and the
metadata insert succeed, and then one record carrying the declared media type
is inserted; in every other case the answer is not 201 and the metadata store
is unchanged. -/
theorem non_image_upload_is_not_filtered (cfg : ServerConfig) (st : ServerState) (env : UploadEnv)
    (req : UploadRequest) (file : IncomingFile) (hfile : req.files = [("image", file)])
    (htype : isImageType file.mimetype = false) :
    ((postUpload cfg st env req).2.status = 201 ↔
        fileTooLarge cfg file.size = false ∧ env.writeError = none ∧ env.saveError = none) ∧
      (file.size < fileSizeLimit → fileTooLarge cfg file.size = false) ∧
      (fileSizeLimit < file.size → fileTooLarge cfg file.size = true) ∧
      ((postUpload cfg st env req).2.status = 201 →
        ∃ doc, (postUpload cfg st env req).1.images = st.images ++ [doc] ∧
          doc.mimetype = file.mimetype ∧ isImageType doc.mimetype = false) ∧
      ((postUpload cfg st env req).2.status ≠ 201 →
        (postUpload cfg st env req).1.images = st.images) := by
  have hbelow : file.size < fileSizeLimit → fileTooLarge cfg file.size = false := by
    intro h
    simp only [fileTooLarge, Bool.or_eq_false_iff, Bool.and_eq_false_imp, decide_eq_false_iff_not,
      decide_eq_true_eq]
    omega
  have habove : fileSizeLimit < file.size → fileTooLarge cfg file.size = true := by
    intro h
    simp [fileTooLarge, h]
  refine ⟨?_, hbelow, habove, ?_⟩
  · by_cases hsize : fileTooLarge cfg file.size = false
    · cases hwrite : env.writeError with
      | none =>
        rw [postUpload_accepted cfg st env req file hfile hsize hwrite]
        cases hsave : env.saveError with
        | none => simp [uploadHandler, hsave, hsize]
        | some message => simp [uploadHandler, hsave]
      | some message =>
        simp [postUpload, uploadSingle, hfile, hsize, hwrite]
    · simp [postUpload, uploadSingle, hfile, (Bool.not_eq_false _).mp hsize]
  · by_cases hsize : fileTooLarge cfg file.size = false
    · cases hwrite : env.writeError with
      | none =>
        rw [postUpload_accepted cfg st env req file hfile hsize hwrite]
        cases hsave : env.saveError with
        | none => simp [uploadHandler, hsave, htype]
        | some message => simp [uploadHandler, hsave]
      | some message =>
        simp [postUpload, uploadSingle, hfile, hsize, hwrite]
    · simp [postUpload, uploadSingle, hfile, (Bool.not_eq_false _).mp hsize]

theorem non_image_upload_is_not_filtered_witness :
    (postUpload sampleConfig ServerState.empty sampleEnv textRequest).2.status = 201 ↔
      fileTooLarge sampleConfig 12 = false ∧ sampleEnv.writeError = none ∧
        sampleEnv.saveError = none :=
  (non_image_upload_is_not_filtered sampleConfig ServerState.empty sampleEnv textRequest
    { originalname := "notes.txt", mimetype := "text/plain", size := 12 } rfl (by decide)).1

theorem single_eq_some (req : UploadRequest) (file : IncomingFile)
    (h : req.single = some file) : req.files = [("image", file)] := by
  unfold UploadRequest.single at h
  split at h
  next fieldname f hfiles =>
    split at h
    next hname =>
      cases h
      rw [hfiles, hname]
    next => cases h
  next => cases h

theorem single_of_files (req : UploadRequest) (file : IncomingFile)
    (h : req.files = [("image", file)]) : req.single = some file := by
  simp [UploadRequest.single, h]

theorem postUpload_unexpected_field (cfg : ServerConfig) (st : ServerState) (env : UploadEnv)
    (req : UploadRequest) (fieldname : String) (file : IncomingFile)
    (rest : List (String × IncomingFile)) (hfiles : req.files = (fieldname, file) :: rest)
    (hname : fieldname ≠ "image") :
    postUpload cfg st env req =
      (st, { status := 500, body := .errorPage "Unexpected field" }) := by
  simp [postUpload, uploadSingle, hfiles, hname]

theorem postUpload_no_single (cfg : ServerConfig) (st : ServerState) (env : UploadEnv)
    (req : UploadRequest) (h : req.single = none) :
    (postUpload cfg st env req).1.images = st.images := by
  rcases postUpload_images cfg st env req with ⟨h201, -⟩ | ⟨-, hsame⟩
  · exfalso
    revert h201
    unfold postUpload uploadSingle
    cases hfiles : req.files with
    | nil => simp [uploadHandler]
    | cons head rest =>
      obtain ⟨fieldname, file⟩ := head
      by_cases hname : fieldname = "image"
      · by_cases hsize : fileTooLarge cfg file.size = false
        · cases hwrite : env.writeError with
          | none =>
            cases rest with
            | nil =>
              subst hname
              rw [single_of_files req file hfiles] at h
              cases h
            | cons second more => simp [hname, hsize]
          | some message => simp [hname, hsize]
        · simp [hname, (Bool.not_eq_false _).mp hsize]
      · simp [hname]
  · exact hsame

/-- C8 (as stated, refuted): a request whose only file part is in the field
`avatar` carries no file in the `image` field; the middleware passes the error
`Unexpected field` on, the route handler does not run, and the answer is the
framework's error page with status 500, not a JSON body `{ error }`. -/
theorem file_in_other_field_gets_error_page :
    avatarRequest.files.map Prod.fst = ["avatar"] ∧
      (postUpload sampleConfig ServerState.empty sampleEnv avatarRequest).2 =
        { status := 500, body := .errorPage "Unexpected field" } ∧
      (postUpload sampleConfig ServerState.empty sampleEnv avatarRequest).2.jsonBody = none ∧
      (postUpload sampleConfig ServerState.empty sampleEnv avatarRequest).2.keys = [] := by
  refine ⟨rfl, rfl, rfl, rfl⟩

/-- C8 (amended): three kinds of failing upload, all answered with status 500,
never 201, and with the metadata store left as it was. A request without any
file part reaches the handler with `req.file` absent and gets the JSON body
`{ error }` holding the message of the `TypeError` raised by reading
`req.file.filename`. A request whose file is accepted and whose metadata insert
fails gets the JSON body `{ error }` holding the message of the insert error.
A request whose first file part is in a field other than `image` never reaches
the handler: it gets the framework's error page for `Unexpected field`. -/
theorem upload_failure_answers_500 (cfg : ServerConfig) (st : ServerState) (env : UploadEnv)
    (req : UploadRequest) :
    (req.files = [] →
        postUpload cfg st env req =
          (st,
            { status := 500
              body := .json (.obj
                [("error", .str "Cannot read properties of undefined (reading 'filename')")]) })) ∧
      (∀ (file : IncomingFile) (message : String),
        req.files = [("image", file)] → fileTooLarge cfg file.size = false →
        env.writeError = none → env.saveError = some message →
        (postUpload cfg st env req).2 =
            { status := 500, body := .json (.obj [("error", .str message)]) } ∧
          (postUpload cfg st env req).2.status ≠ 201 ∧
          (postUpload cfg st env req).1.images = st.images) ∧
      (∀ (fieldname : String) (file : IncomingFile) (rest : List (String × IncomingFile)),
        req.files = (fieldname, file) :: rest → fieldname ≠ "image" →
        postUpload cfg st env req =
          (st, { status := 500, body := .errorPage "Unexpected field" })) := by
  refine ⟨?_, ?_, ?_⟩
  · intro hreq
    simp [postUpload, uploadSingle, hreq, uploadHandler, errorJson, undefinedFileMessage]
  · intro file message hfile hsize hwrite hsave
    rw [postUpload_accepted cfg st env req file hfile hsize hwrite]
    simp [uploadHandler, hsave, errorJson]
  · intro fieldname file rest hfiles hname
    exact postUpload_unexpected_field cfg st env req fieldname file rest hfiles hname

theorem upload_failure_answers_500_witness :
    postUpload sampleConfig ServerState.empty sampleEnv emptyRequest =
        (ServerState.empty,
          { status := 500
            body := .json (.obj
              [("error", .str "Cannot read properties of undefined (reading 'filename')")]) }) ∧
      (postUpload sampleConfig ServerState.empty failingSaveEnv pngRequest).2 =
        { status := 500, body := .json (.obj [("error", .str "E11000 duplicate key")]) } ∧
      (postUpload sampleConfig ServerState.empty failingSaveEnv pngRequest).1.images = [] ∧
      postUpload sampleConfig ServerState.empty sampleEnv avatarRequest =
        (ServerState.empty, { status := 500, body := .errorPage "Unexpected field" }) :=
  ⟨(upload_failure_answers_500 sampleConfig ServerState.empty sampleEnv emptyRequest).1 rfl,
    ((upload_failure_answers_500 sampleConfig ServerState.empty failingSaveEnv pngRequest).2.1
      { originalname := "cat.png", mimetype := "image/png", size := 2048 }
      "E11000 duplicate key" rfl (by decide) rfl rfl).1,
    ((upload_failure_answers_500 sampleConfig ServerState.empty failingSaveEnv pngRequest).2.1
      { originalname := "cat.png", mimetype := "image/png", size := 2048 }
      "E11000 duplicate key" rfl (by decide) rfl rfl).2.2,
    (upload_failure_answers_500 sampleConfig ServerState.empty sampleEnv avatarRequest).2.2
      "avatar" { originalname := "cat.png", mimetype := "image/png", size := 2048 } [] rfl
      (by decide)⟩

/-! ## Properties of the client -/

/-- C4 (the code at the failing input): a file of type
`application/x-apple-diskimage`, which is not an image type, of 1024 bytes passes
the type test of `handleFileChange`: it becomes the selected file and the error
is cleared, instead of being refused with a message. -/
theorem disk_image_file_is_selected :
    isImageType diskImageFile.type = false ∧
      matchesImagePattern diskImageFile.type.data = true ∧
      handleFileChange AppState.init [diskImageFile] =
        ({ AppState.init with selectedFile := some diskImageFile, error := .str "" }, []) := by
  refine ⟨by decide, by decide, rfl⟩

/-- C6 (as stated, refuted): after `handleUpload` has run with a file selected and
both the upload and the list request succeeding, the file is still selected:
`selectedFile` is not null. -/
theorem successful_upload_keeps_selection :
    selectedState.selectedFile = some pngFile ∧
      (handleUpload selectedState
          (some { status := 201, data := .obj [] })
          (some { status := 200, data := .arr [.obj []] })).1.selectedFile ≠ none ∧
      (handleUpload selectedState
          (some { status := 201, data := .obj [] })
          (some { status := 200, data := .arr [.obj []] })).1.selectedFile = some pngFile := by
  refine ⟨rfl, ?_, rfl⟩
  intro h
  cases h

/-- C6 (amended): when `handleUpload` runs with a file selected and the upload
request succeeds, it sends the upload and then the list request, and in the
resulting state `selectedFile` is unchanged (the file stays selected) and
`uploading` is false; when the list request succeeds the image list is the data
of the list response and the error is cleared, and when it fails the image
list is unchanged and the error is the load-failure text. -/
theorem successful_upload_refreshes_list (s : AppState) (file : File)
    (postOutcome getOutcome : Option HttpResponse) (response : HttpResponse)
    (hsel : s.selectedFile = some file) (hpost : axiosSettle postOutcome = .ok response) :
    (handleUpload s postOutcome getOutcome).1.selectedFile = some file ∧
      (handleUpload s postOutcome getOutcome).1.uploading = false ∧
      (handleUpload s postOutcome getOutcome).2 = [.postUpload file, .getImages] ∧
      (∀ listResponse, axiosSettle getOutcome = .ok listResponse →
        (handleUpload s postOutcome getOutcome).1.images = listResponse.data ∧
          (handleUpload s postOutcome getOutcome).1.error = .str "") ∧
      (∀ err, axiosSettle getOutcome = .error err →
        (handleUpload s postOutcome getOutcome).1.images = s.images ∧
          (handleUpload s postOutcome getOutcome).1.error =
            .str "Failed to load images. Please try again later.") := by
  unfold handleUpload
  simp only [hsel, hpost]
  unfold fetchImages
  cases hget : axiosSettle getOutcome with
  | ok listResponse => simp [hsel]
  | error err => simp [hsel]

theorem successful_upload_refreshes_list_witness :
    (handleUpload selectedState
        (some { status := 201, data := .obj [] })
        (some { status := 200, data := .arr [.obj []] })).1.selectedFile = some pngFile ∧
      (handleUpload selectedState
        (some { status := 201, data := .obj [] })
        (some { status := 200, data := .arr [.obj []] })).1.uploading = false ∧
      (handleUpload selectedState
        (some { status := 201, data := .obj [] })
        (some { status := 200, data := .arr [.obj []] })).1.images = .arr [.obj []] :=
  have h := successful_upload_refreshes_list selectedState pngFile
    (some { status := 201, data := .obj [] })
    (some { status := 200, data := .arr [.obj []] }) { status := 201, data := .obj [] } rfl rfl
  ⟨h.1, h.2.1, (h.2.2.2.1 { status := 200, data := .arr [.obj []] } rfl).1⟩

theorem or_truthy (a : JsVal) (text : String) (htext : text ≠ "") :
    (a.or (.str text)).truthy = true := by
  unfold JsVal.or
  by_cases h : a.truthy = true
  · rw [if_pos h]
    exact h
  · rw [if_neg h]
    simp [JsVal.truthy, htext]

/-- C7: when `handleUpload` runs with a file selected and the upload request fails
(a response whose status is not 2xx, or no response at all), the resulting
state has `selectedFile` unchanged and `uploading` false, its error is truthy
(so not the empty string) and is either the `message` field of the response
data or the generic upload-failure text, the image list is unchanged, and only
the upload request was sent. -/
theorem failed_upload_keeps_selection (s : AppState) (file : File)
    (postOutcome getOutcome : Option HttpResponse) (err : AxiosError)
    (hsel : s.selectedFile = some file) (hpost : axiosSettle postOutcome = .error err) :
    (handleUpload s postOutcome getOutcome).1.selectedFile = some file ∧
      (handleUpload s postOutcome getOutcome).1.uploading = false ∧
      (handleUpload s postOutcome getOutcome).1.error.truthy = true ∧
      (handleUpload s postOutcome getOutcome).1.error ≠ .str "" ∧
      (((handleUpload s postOutcome getOutcome).1.error = err.message ∧
            ∃ response, postOutcome = some response ∧
              err.message = response.data.get "message") ∨
        (handleUpload s postOutcome getOutcome).1.error = .str uploadFailedText) ∧
      (handleUpload s postOutcome getOutcome).1.images = s.images ∧
      (handleUpload s postOutcome getOutcome).2 = [.postUpload file] := by
  have htruthy := or_truthy err.message uploadFailedText (by decide)
  have heq : handleUpload s postOutcome getOutcome =
      ({ s with uploading := false, error := err.message.or (.str uploadFailedText) },
        [.postUpload file]) := by
    unfold handleUpload
    simp only [hsel, hpost]
  rw [heq]
  refine ⟨hsel, rfl, htruthy, ?_, ?_, rfl, rfl⟩
  · intro h
    have h2 : (err.message.or (.str uploadFailedText)) = .str "" := h
    rw [h2] at htruthy
    simp [JsVal.truthy] at htruthy
  · show (err.message.or (.str uploadFailedText) = err.message ∧ _) ∨
      err.message.or (.str uploadFailedText) = .str uploadFailedText
    unfold JsVal.or
    by_cases ht : err.message.truthy = true
    · left
      refine ⟨if_pos ht, ?_⟩
      cases hout : postOutcome with
      | none =>
        rw [hout] at hpost
        simp only [axiosSettle] at hpost
        cases hpost
        simp [AxiosError.message, JsVal.truthy] at ht
      | some response =>
        refine ⟨response, rfl, ?_⟩
        rw [hout] at hpost
        simp only [axiosSettle] at hpost
        split at hpost
        · cases hpost
        · cases hpost
          rfl
    · right
      exact if_neg ht

theorem failed_upload_keeps_selection_witness :
    (handleUpload selectedState
        (some { status := 500, data := .obj [("error", .str "disk full")] })
        none).1.selectedFile = some pngFile ∧
      (handleUpload selectedState
        (some { status := 500, data := .obj [("error", .str "disk full")] })
        none).1.error.truthy = true ∧
      (handleUpload selectedState
        (some { status := 500, data := .obj [("error", .str "disk full")] })
        none).1.images = selectedState.images :=
  have h := failed_upload_keeps_selection selectedState pngFile
    (some { status := 500, data := .obj [("error", .str "disk full")] }) none
    { response := some { status := 500, data := .obj [("error", .str "disk full")] } } rfl rfl
  ⟨h.1, h.2.2.1, h.2.2.2.2.2.1⟩

/-- C10: every item of the list response has exactly the fields `_id`, `filename`,
`url` and `createdAt`, so none named `originalname`; the gallery rendered from
that response has one card per stored record, and on every card the image name
and the alternative text, both read from `image.originalname`, are undefined,
whatever the original names of the uploads were. -/
theorem gallery_cards_have_no_original_name (st : ServerState) :
    (∀ items, (getImages st none).items = some items →
        ∀ item ∈ items, item.keys = ["_id", "filename", "url", "createdAt"] ∧
          item.get "originalname" = .undefined) ∧
      (renderGallery (loadedImages st)).cards.length = st.images.length ∧
      ∀ card ∈ (renderGallery (loadedImages st)).cards,
        card.alt = .undefined ∧ card.name = .undefined := by
  have hcards : (renderGallery (loadedImages st)).cards =
      ((findSorted st).map imageJson).map renderCard := by
    simp only [loadedImages, getImages]
    have hany : ((findSorted st).map imageJson).any JsVal.isNullish = false := by
      rw [List.any_eq_false]
      intro item hitem
      obtain ⟨img, _, rfl⟩ := List.mem_map.mp hitem
      simp [imageJson, JsVal.isNullish]
    cases h : (findSorted st).map imageJson with
    | nil => simp [renderGallery, Gallery.cards]
    | cons a l =>
      rw [h] at hany
      simp only [renderGallery, hany]
      simp [Gallery.cards]
  refine ⟨?_, ?_, ?_⟩
  · intro items hitems item hmem
    simp only [getImages, Response.items, Option.some.injEq] at hitems
    subst hitems
    obtain ⟨img, _, rfl⟩ := List.mem_map.mp hmem
    exact ⟨imageJson_keys img, imageJson_originalname img⟩
  · rw [hcards, List.length_map, List.length_map, (findSorted_perm st).length_eq]
  · intro card hcard
    rw [hcards, List.map_map] at hcard
    obtain ⟨img, _, rfl⟩ := List.mem_map.mp hcard
    simp [renderCard, imageJson_originalname]

/-! ## Properties of the storage-name generator -/

theorem roundHalfEven_eq (y : ℚ) (n : Int) (h : |y - n| < 1 / 2) : roundHalfEven y = n := by
  rw [abs_lt] at h
  obtain ⟨hl, hr⟩ := h
  unfold roundHalfEven
  by_cases hn : (n : ℚ) ≤ y
  · have hf : Int.floor y = n := by
      rw [Int.floor_eq_iff]
      constructor
      · exact hn
      · linarith
    simp only [hf]
    rw [if_pos (by linarith)]
  · push_neg at hn
    have hf : Int.floor y = n - 1 := by
      rw [Int.floor_eq_iff]
      push_cast
      constructor <;> linarith
    simp only [hf]
    push_cast
    rw [if_neg (by linarith), if_pos (by linarith)]
    ring

theorem roundHalfEven_near (y : ℚ) : |(roundHalfEven y : ℚ) - y| ≤ 1 / 2 := by
  have hfl := Int.floor_le y
  have hlt := Int.lt_floor_add_one y
  unfold roundHalfEven
  rw [abs_le]
  simp only []
  split_ifs with h1 h2 h3
  · constructor <;> linarith
  · push_cast
    constructor <;> linarith
  · push_neg at h1 h2
    constructor <;> linarith
  · push_neg at h1 h2
    push_cast
    constructor <;> linarith

theorem roundHalfEven_nonneg (y : ℚ) (hy : 0 ≤ y) : 0 ≤ roundHalfEven y := by
  have hf : 0 ≤ Int.floor y := Int.floor_nonneg.mpr hy
  unfold roundHalfEven
  simp only []
  split_ifs <;> omega

theorem toDouble_nonneg (x : ℚ) (hx : 0 ≤ x) : 0 ≤ toDouble x := by
  unfold toDouble
  simp only []
  have hulp : (0 : ℚ) < 2 ^ (max (Int.log 2 |x|) (-1022) - 52) := zpow_pos (by norm_num) _
  have hr := roundHalfEven_nonneg (x / 2 ^ (max (Int.log 2 |x|) (-1022) - 52))
    (div_nonneg hx hulp.le)
  exact mul_nonneg (by exact_mod_cast hr) hulp.le

theorem toDouble_near (x : ℚ) (hx : 0 ≤ x) (hlt : x < 2 ^ 30) :
    |toDouble x - x| ≤ 1 / 2 ^ 24 := by
  have hexp : max (Int.log 2 |x|) (-1022) ≤ 29 := by
    apply max_le _ (by norm_num)
    rw [abs_of_nonneg hx]
    rcases eq_or_lt_of_le hx with h0 | hpos
    · rw [← h0, Int.log_of_right_le_zero 2 (le_refl (0 : ℚ))]
      norm_num
    · have := (Int.lt_zpow_iff_log_lt (b := 2) (by norm_num) hpos).mp
        (show x < (2 : ℚ) ^ (30 : ℤ) by exact_mod_cast hlt)
      omega
  unfold toDouble
  simp only []
  generalize max (Int.log 2 |x|) (-1022) = e at hexp
  have hulp : (0 : ℚ) < 2 ^ (e - 52) := zpow_pos (by norm_num) _
  have hle : (2 : ℚ) ^ (e - 52) ≤ 2 ^ (-23 : ℤ) :=
    zpow_le_zpow_right₀ (by norm_num) (by omega)
  have hnear := roundHalfEven_near (x / 2 ^ (e - 52))
  have hdiff : (roundHalfEven (x / 2 ^ (e - 52)) : ℚ) * 2 ^ (e - 52) - x =
      ((roundHalfEven (x / 2 ^ (e - 52)) : ℚ) - x / 2 ^ (e - 52)) * 2 ^ (e - 52) := by
    rw [sub_mul, div_mul_cancel₀ x hulp.ne']
  rw [hdiff, abs_mul, abs_of_pos hulp]
  calc |(roundHalfEven (x / 2 ^ (e - 52)) : ℚ) - x / 2 ^ (e - 52)| * 2 ^ (e - 52)
      ≤ 1 / 2 * 2 ^ (-23 : ℤ) :=
        mul_le_mul hnear hle hulp.le (by norm_num)
    _ = 1 / 2 ^ 24 := by norm_num

theorem toDouble_eq (x : ℚ) (e n : Int) (hlo : (2 : ℚ) ^ e ≤ x) (hhi : x < (2 : ℚ) ^ (e + 1))
    (hnorm : -1022 ≤ e) (hn : |x / (2 : ℚ) ^ (e - 52) - n| < 1 / 2) :
    toDouble x = n * (2 : ℚ) ^ (e - 52) := by
  have hpos : 0 < x := lt_of_lt_of_le (zpow_pos (by norm_num) e) hlo
  have hlog : Int.log 2 |x| = e := by
    rw [abs_of_pos hpos]
    apply le_antisymm
    · have := (Int.lt_zpow_iff_log_lt (b := 2) (by norm_num) hpos).mp hhi
      omega
    · exact (Int.zpow_le_iff_le_log (b := 2) (by norm_num) hpos).mp hlo
  unfold toDouble
  simp only [hlog, max_eq_left hnorm]
  rw [roundHalfEven_eq _ n hn]

theorem roundHalfEven_half (f : Int) :
    roundHalfEven (f + 1 / 2) = if f % 2 = 0 then f else f + 1 := by
  have hf : Int.floor ((f : ℚ) + 1 / 2) = f := by
    rw [Int.floor_eq_iff]
    constructor <;> linarith
  unfold roundHalfEven
  simp only [hf]
  rw [if_neg (by norm_num), if_neg (by norm_num)]

theorem jsTimes_tieDraw : jsTimes tieDraw 1000000000 = 8388607997070312 / 2 ^ 23 := by
  have hpos : (0 : ℚ) < 8589934589 / 2 ^ 33 * 1000000000 := by norm_num
  have hlog : Int.log 2 |(8589934589 / 2 ^ 33 * 1000000000 : ℚ)| = 29 := by
    rw [abs_of_pos hpos]
    apply le_antisymm
    · have := (Int.lt_zpow_iff_log_lt (b := 2) (by norm_num) hpos).mp
        (show (8589934589 / 2 ^ 33 * 1000000000 : ℚ) < 2 ^ (30 : ℤ) by norm_num)
      omega
    · exact (Int.zpow_le_iff_le_log (b := 2) (by norm_num) hpos).mp (by norm_num)
  unfold jsTimes tieDraw toDouble
  simp only [hlog]
  have hy : (8589934589 / 2 ^ 33 * 1000000000 : ℚ) / 2 ^ (max (29 : ℤ) (-1022) - 52) =
      ((8388607997070312 : ℤ) : ℚ) + 1 / 2 := by
    norm_num
  rw [hy, roundHalfEven_half]
  norm_num

theorem mathRound_near (x : ℚ) : (mathRound x : ℚ) - 1 / 2 ≤ x ∧ x < mathRound x + 1 / 2 := by
  unfold mathRound
  have hfl := Int.floor_le (x + 1 / 2)
  have hlt := Int.lt_floor_add_one (x + 1 / 2)
  constructor <;> linarith

theorem roundedDraw_nonneg (random : ℚ) (h : 0 ≤ random) : 0 ≤ roundedDraw random := by
  unfold roundedDraw mathRound jsTimes
  have := toDouble_nonneg (random * 1000000000) (by positivity)
  exact Int.floor_nonneg.mpr (by linarith)

theorem roundedDraw_le (random : ℚ) (h0 : 0 ≤ random) (h1 : random < 1) :
    roundedDraw random ≤ 1000000000 := by
  have hnear := toDouble_near (random * 1000000000) (by positivity)
    (by norm_num; linarith)
  rw [abs_le] at hnear
  unfold roundedDraw mathRound jsTimes
  have hlt : Int.floor (toDouble (random * 1000000000) + 1 / 2) < 1000000001 := by
    rw [Int.floor_lt]
    push_cast
    have h24 : (1 : ℚ) / 2 ^ 24 < 1 / 2 := by norm_num
    linarith [hnear.2]
  omega

theorem roundedDraw_sample : roundedDraw (1 / 4) = 250000000 := by
  unfold roundedDraw jsTimes
  rw [toDouble_eq (1 / 4 * 1000000000) 27 (250000000 * 2 ^ 25) (by norm_num) (by norm_num)
    (by norm_num) (by norm_num)]
  unfold mathRound
  rw [Int.floor_eq_iff]
  norm_num

theorem roundedDraw_nearHalfDraw : roundedDraw nearHalfDraw = 46167 := by
  unfold roundedDraw jsTimes nearHalfDraw
  rw [toDouble_eq (415830864394 / 2 ^ 53 * 1000000000) 15 (92333 * 2 ^ 36) (by norm_num)
    (by norm_num) (by norm_num) (by rw [abs_lt]; norm_num)]
  unfold mathRound
  rw [Int.floor_eq_iff]
  norm_num

theorem roundedDraw_nextDraw : roundedDraw nextDraw = 46167 := by
  unfold roundedDraw jsTimes nextDraw
  rw [toDouble_eq (415830864395 / 2 ^ 53 * 1000000000) 15 (92333 * 2 ^ 36 + 15259) (by norm_num)
    (by norm_num) (by norm_num) (by rw [abs_lt]; norm_num)]
  unfold mathRound
  rw [Int.floor_eq_iff]
  norm_num

theorem extname_data (name : String) : (extname name).data = extnameChars name.data := rfl

theorem extname_head_not_digit (name : String) :
    ∀ c ∈ (extname name).data.head?, ¬ c.isDigit = true := by
  intro c hc
  rw [extname_data] at hc
  rcases extnameChars_shape name.data with h | ⟨t, h⟩
  · rw [h] at hc
    simp at hc
  · rw [h] at hc
    simp only [List.head?_cons, Option.mem_def, Option.some.injEq] at hc
    subst hc
    decide

theorem storageFilename_data (now k : Nat) (random : ℚ) (name : String)
    (hk : roundedDraw random = Int.ofNat k) :
    (storageFilename now random name).data =
      Nat.toDigits 10 now ++ ('-' :: (Nat.toDigits 10 k ++ (extname name).data)) := by
  unfold storageFilename
  rw [hk]
  show ((toString now ++ "-" ++ toString k) ++ extname name).data = _
  simp only [String.data_append, toString_nat_data, List.append_assoc]
  rfl

theorem storageFilename_eq_iff (now1 now2 : Nat) (random1 random2 : ℚ) (name1 name2 : String)
    (h1 : 0 ≤ random1) (h2 : 0 ≤ random2) :
    storageFilename now1 random1 name1 = storageFilename now2 random2 name2 ↔
      now1 = now2 ∧ roundedDraw random1 = roundedDraw random2 ∧
        extname name1 = extname name2 := by
  constructor
  · intro h
    obtain ⟨k1, hk1⟩ := Int.eq_ofNat_of_zero_le (roundedDraw_nonneg random1 h1)
    obtain ⟨k2, hk2⟩ := Int.eq_ofNat_of_zero_le (roundedDraw_nonneg random2 h2)
    have hd := congrArg String.data h
    rw [storageFilename_data now1 k1 random1 name1 hk1,
      storageFilename_data now2 k2 random2 name2 hk2] at hd
    obtain ⟨hnow, hrest⟩ := append_split (fun c => c.isDigit = true) _ _ _ _
      (toDigits_isDigit now1) (toDigits_isDigit now2)
      (by intro c hc; simp at hc; subst hc; decide)
      (by intro c hc; simp at hc; subst hc; decide) hd
    have hrest2 := List.tail_eq_of_cons_eq hrest
    obtain ⟨hk, hext⟩ := append_split (fun c => c.isDigit = true) _ _ _ _
      (toDigits_isDigit k1) (toDigits_isDigit k2)
      (extname_head_not_digit name1) (extname_head_not_digit name2) hrest2
    refine ⟨toDigits_injective _ _ hnow, ?_, ?_⟩
    · rw [hk1, hk2, toDigits_injective _ _ hk]
    · have := congrArg String.mk hext
      simpa using this
  · rintro ⟨hnow, hround, hext⟩
    unfold storageFilename
    rw [hnow, hround, hext]

theorem postUpload_filenames (cfg : ServerConfig) (st : ServerState) (env : UploadEnv)
    (req : UploadRequest) :
    ∃ l, (postUpload cfg st env req).1.images.map ImageDoc.filename =
        st.images.map ImageDoc.filename ++ l ∧
      l.Sublist (requestName (env, req)).toList := by
  cases hsingle : req.single with
  | none =>
    refine ⟨[], ?_, by simp⟩
    rw [postUpload_no_single cfg st env req hsingle]
    simp
  | some file =>
    have hfile := single_eq_some req file hsingle
    by_cases hsize : fileTooLarge cfg file.size = false
    · cases hwrite : env.writeError with
      | none =>
        rw [postUpload_accepted cfg st env req file hfile hsize hwrite]
        cases hsave : env.saveError with
        | none =>
          refine ⟨[storageFilename env.now env.random file.originalname], ?_, ?_⟩
          · simp [uploadHandler, hsave]
          · simp [requestName, hsingle]
        | some message =>
          refine ⟨[], ?_, by simp⟩
          simp [uploadHandler, hsave]
      | some message =>
        refine ⟨[], ?_, by simp⟩
        simp [postUpload, uploadSingle, hfile, hsize, hwrite]
    · refine ⟨[], ?_, by simp⟩
      simp [postUpload, uploadSingle, hfile, (Bool.not_eq_false _).mp hsize]

theorem runUploads_filenames (cfg : ServerConfig) (reqs : List (UploadEnv × UploadRequest)) :
    ∀ st : ServerState,
      ∃ l, (runUploads cfg st reqs).1.images.map ImageDoc.filename =
          st.images.map ImageDoc.filename ++ l ∧
        l.Sublist (reqs.filterMap requestName) := by
  induction reqs with
  | nil => intro st; exact ⟨[], by simp [runUploads], by simp⟩
  | cons head rest ih =>
    intro st
    obtain ⟨env, req⟩ := head
    obtain ⟨l1, hl1, hs1⟩ := postUpload_filenames cfg st env req
    obtain ⟨l2, hl2, hs2⟩ := ih (postUpload cfg st env req).1
    refine ⟨l1 ++ l2, ?_, ?_⟩
    · simp only [runUploads]
      rw [hl2, hl1, List.append_assoc]
    · have hcons : ((env, req) :: rest).filterMap requestName =
          (requestName (env, req)).toList ++ rest.filterMap requestName := by
        cases h : requestName (env, req) <;> simp [List.filterMap_cons, h]
      rw [hcons]
      exact hs1.append hs2

theorem requestNames_nodup (reqs : List (UploadEnv × UploadRequest))
    (hrand : ∀ x ∈ reqs, 0 ≤ x.1.random) (hkeys : (reqs.filterMap requestKey).Nodup) :
    (reqs.filterMap requestName).Nodup := by
  induction reqs with
  | nil => simp
  | cons x rest ih =>
    have hrest : ∀ y ∈ rest, 0 ≤ y.1.random := fun y hy => hrand y (List.mem_cons_of_mem _ hy)
    cases hfile : x.2.single with
    | none =>
      have hk : requestKey x = none := by simp [requestKey, hfile]
      have hn : requestName x = none := by simp [requestName, hfile]
      rw [List.filterMap_cons, hk] at hkeys
      rw [List.filterMap_cons, hn]
      exact ih hrest hkeys
    | some file =>
      have hk : requestKey x =
          some (x.1.now, roundedDraw x.1.random, extname file.originalname) := by
        simp [requestKey, hfile]
      have hn : requestName x = some (storageFilename x.1.now x.1.random file.originalname) := by
        simp [requestName, hfile]
      rw [List.filterMap_cons, hk] at hkeys
      rw [List.filterMap_cons, hn]
      obtain ⟨hnotin, hnodup⟩ := List.nodup_cons.mp hkeys
      refine List.nodup_cons.mpr ⟨?_, ih hrest hnodup⟩
      intro hmem
      apply hnotin
      obtain ⟨y, hy, hyname⟩ := List.mem_filterMap.mp hmem
      refine List.mem_filterMap.mpr ⟨y, hy, ?_⟩
      cases hyfile : y.2.single with
      | none => simp [requestName, hyfile] at hyname
      | some other =>
        simp only [requestName, hyfile, Option.map_some', Option.some.injEq] at hyname
        obtain ⟨e1, e2, e3⟩ := (storageFilename_eq_iff _ _ _ _ _ _ (hrest y hy)
          (hrand x (List.mem_cons_self _ _))).mp hyname
        simp [requestKey, hyfile, e1, e2, e3]

/-- C5 (as stated, refuted): two uploads that read the same clock value and the
same random draw and whose original names have the same extension get the same
storage name; both records are inserted, so the store reached holds two
records with one `filename`. -/
theorem same_draw_gives_same_storage_name :
    storageFilename sampleEnv.now sampleEnv.random "cat.png" =
        storageFilename sameDrawEnv.now sameDrawEnv.random "dog.png" ∧
      ((runUploads sampleConfig ServerState.empty
          [(sampleEnv, pngRequest), (sameDrawEnv, otherPngRequest)]).1.images.map
        ImageDoc._id) = [7, 8] ∧
      ¬ ((runUploads sampleConfig ServerState.empty
          [(sampleEnv, pngRequest), (sameDrawEnv, otherPngRequest)]).1.images.map
        ImageDoc.filename).Nodup := by
  have hname : storageFilename sampleEnv.now sampleEnv.random "cat.png" =
      storageFilename sameDrawEnv.now sameDrawEnv.random "dog.png" := by
    refine (storageFilename_eq_iff _ _ _ _ _ _ ?_ ?_).mpr ⟨rfl, rfl, by decide⟩ <;>
      norm_num [sampleEnv, sameDrawEnv]
  have hrun : ((runUploads sampleConfig ServerState.empty
      [(sampleEnv, pngRequest), (sameDrawEnv, otherPngRequest)]).1.images.map
        ImageDoc.filename) =
      [storageFilename sampleEnv.now sampleEnv.random "cat.png",
        storageFilename sameDrawEnv.now sameDrawEnv.random "dog.png"] := rfl
  refine ⟨hname, rfl, ?_⟩
  rw [hrun, hname]
  simp

/-- C5 (amended): for two upload requests with random draws in the range of
`Math.random`, the generated storage names are distinct exactly when the
timestamps differ, or the rounded draws differ, or the extensions of the
original names differ; requests that agree on all three get the same name.
The rounded draw of a draw `r` in `[0, 1)` is `Math.round` of the double product
`r * 1e9`: an integer between `0` and `1e9` within `1/2 + 2 ^ (-24)` of the exact
product, so different draws may have the same rounded draw. Hence `filename` is
unique across the records of every store state reached from the empty store
by uploads whose files pairwise differ in timestamp, rounded draw or
extension. -/
theorem storage_names_distinct_iff :
    (∀ (now1 now2 : Nat) (random1 random2 : ℚ) (name1 name2 : String),
        0 ≤ random1 → 0 ≤ random2 →
        (storageFilename now1 random1 name1 ≠ storageFilename now2 random2 name2 ↔
          now1 ≠ now2 ∨ roundedDraw random1 ≠ roundedDraw random2 ∨
            extname name1 ≠ extname name2)) ∧
      (∀ random : ℚ, 0 ≤ random → random < 1 →
        0 ≤ roundedDraw random ∧ roundedDraw random ≤ 1000000000 ∧
          |(roundedDraw random : ℚ) - random * 1000000000| ≤ 1 / 2 + 1 / 2 ^ 24) ∧
      ∀ (cfg : ServerConfig) (reqs : List (UploadEnv × UploadRequest)),
        (∀ x ∈ reqs, 0 ≤ x.1.random) → (reqs.filterMap requestKey).Nodup →
        ((runUploads cfg ServerState.empty reqs).1.images.map ImageDoc.filename).Nodup := by
  refine ⟨?_, ?_, ?_⟩
  · intro now1 now2 random1 random2 name1 name2 h1 h2
    rw [Ne, storageFilename_eq_iff now1 now2 random1 random2 name1 name2 h1 h2]
    constructor
    · intro h
      by_contra hcon
      push_neg at hcon
      exact h hcon
    · rintro h ⟨e1, e2, e3⟩
      rcases h with h | h | h
      · exact h e1
      · exact h e2
      · exact h e3
  · intro random h0 h1
    refine ⟨roundedDraw_nonneg random h0, roundedDraw_le random h0 h1, ?_⟩
    have hround := mathRound_near (jsTimes random 1000000000)
    have hnear := toDouble_near (random * 1000000000) (by positivity)
      (by norm_num; linarith)
    rw [abs_le] at hnear ⊢
    unfold roundedDraw
    unfold jsTimes at hround ⊢
    constructor <;> linarith [hround.1, hround.2, hnear.1, hnear.2]
  · intro cfg reqs hrand hkeys
    obtain ⟨l, hl, hsub⟩ := runUploads_filenames cfg reqs ServerState.empty
    rw [hl]
    simpa [ServerState.empty] using (requestNames_nodup reqs hrand hkeys).sublist hsub

theorem storage_names_distinct_iff_witness :
    (storageFilename 1700000000000 (1 / 4) "cat.png" ≠
        storageFilename 1700000000001 (1 / 4) "dog.png" ↔
      (1700000000000 : Nat) ≠ 1700000000001 ∨ roundedDraw (1 / 4) ≠ roundedDraw (1 / 4) ∨
        extname "cat.png" ≠ extname "dog.png") ∧
      nearHalfDraw ≠ nextDraw ∧
      storageFilename 1700000000000 nearHalfDraw "cat.png" =
        storageFilename 1700000000000 nextDraw "dog.png" ∧
      ((runUploads sampleConfig ServerState.empty
          [(sampleEnv, pngRequest), (laterEnv, otherPngRequest)]).1.images.map
        ImageDoc.filename).Nodup :=
  ⟨storage_names_distinct_iff.1 1700000000000 1700000000001 (1 / 4) (1 / 4) "cat.png" "dog.png"
      (by norm_num) (by norm_num),
    by norm_num [nearHalfDraw, nextDraw],
    not_not.mp (mt (storage_names_distinct_iff.1 1700000000000 1700000000000 nearHalfDraw
      nextDraw "cat.png" "dog.png" (by norm_num [nearHalfDraw]) (by norm_num [nextDraw])).mp
      (by
        rw [roundedDraw_nearHalfDraw, roundedDraw_nextDraw]
        decide)),
    storage_names_distinct_iff.2.2 sampleConfig
      [(sampleEnv, pngRequest), (laterEnv, otherPngRequest)]
      (by
        intro x hx
        simp only [List.mem_cons, List.mem_singleton, List.not_mem_nil, or_false] at hx
        rcases hx with rfl | rfl <;> norm_num [sampleEnv, laterEnv])
      (by simp [requestKey, UploadRequest.single, sampleEnv, laterEnv, pngRequest,
        otherPngRequest])⟩

/-- C9 (as stated, refuted): for the original name `.png` the final dot and what
follows it is `.png`, but `path.extname` is empty, so the generated storage name
carries no extension. -/
theorem dot_file_name_gets_no_extension :
    storageFilename 1700000000000 (1 / 4) ".png" = "1700000000000-250000000" ∧
      specStorageFilename 1700000000000 (1 / 4) ".png" = "1700000000000-250000000.png" ∧
      storageFilename 1700000000000 (1 / 4) ".png" ≠
        specStorageFilename 1700000000000 (1 / 4) ".png" := by
  have h1 : storageFilename 1700000000000 (1 / 4) ".png" = "1700000000000-250000000" := by
    unfold storageFilename
    rw [roundedDraw_sample]
    decide
  have h2 : specStorageFilename 1700000000000 (1 / 4) ".png" =
      "1700000000000-250000000.png" := by
    unfold specStorageFilename
    rw [roundedDraw_sample]
    decide
  refine ⟨h1, h2, ?_⟩
  rw [h1, h2]
  decide

/-- C9 (amended): for a timestamp `t`, a draw `r` in `[0, 1)` and an original file
name, the generated storage name is the decimal text of `t`, a hyphen, the
decimal text of the rounded draw, followed by `path.extname` of the original
name, so it ends with that extension. The rounded draw is `Math.round` of the
double product `r * 1e9`: an integer between `0` and `1e9` within one half of
that double (halves go up), the double being within `2 ^ (-24)` of the exact
product. The extension is empty or starts with a dot. For an original name
without `/` it is the final dot and what follows it, except that it is empty
when the name has no dot, when its only dot is its first character (as in
`.png`), and for the name `..`. -/
theorem storage_name_format (now : Nat) (random : ℚ) (originalname : String)
    (h0 : 0 ≤ random) (h1 : random < 1) :
    storageFilename now random originalname =
        toString now ++ "-" ++ toString (roundedDraw random) ++ extname originalname ∧
      (0 ≤ roundedDraw random ∧ roundedDraw random ≤ 1000000000) ∧
      ((roundedDraw random : ℚ) - 1 / 2 ≤ jsTimes random 1000000000 ∧
        jsTimes random 1000000000 < roundedDraw random + 1 / 2) ∧
      |jsTimes random 1000000000 - random * 1000000000| ≤ 1 / 2 ^ 24 ∧
      (extname originalname).data <:+ (storageFilename now random originalname).data ∧
      ((extname originalname).data = [] ∨ ∃ t, (extname originalname).data = '.' :: t) ∧
      ('/' ∉ originalname.data →
        (extname originalname).data =
          if finalDotPart originalname.data = originalname.data ∨
              originalname.data = ['.', '.'] then []
          else finalDotPart originalname.data) := by
  refine ⟨rfl, ⟨roundedDraw_nonneg random h0, roundedDraw_le random h0 h1⟩,
    mathRound_near (jsTimes random 1000000000), ?_, ?_,
    extnameChars_shape originalname.data, ?_⟩
  · exact toDouble_near (random * 1000000000) (by positivity) (by norm_num; linarith)
  · unfold storageFilename
    simp only [String.data_append]
    exact List.suffix_append _ _
  · intro hslash
    exact extnameChars_of_no_separator originalname.data hslash

theorem storage_name_format_witness :
    storageFilename 1700000000000 nearHalfDraw "photo.final.png" =
        "1700000000000-46167.png" ∧
      (extname "photo.final.png").data = finalDotPart "photo.final.png".data ∧
      (extname "photo.final.png").data = ['.', 'p', 'n', 'g'] :=
  have h := storage_name_format 1700000000000 nearHalfDraw "photo.final.png"
    (by norm_num [nearHalfDraw]) (by norm_num [nearHalfDraw])
  ⟨h.1.trans (by rw [roundedDraw_nearHalfDraw]; decide),
    (h.2.2.2.2.2.2 (by decide)).trans (by decide),
    (h.2.2.2.2.2.2 (by decide)).trans (by decide)⟩

end ImageGallery
